import Mathlib

/-!
Shallow embedding of the ACTO chat backend (`src/acto-bacend.js`).

The server keeps four global structures: `users`, `chats`, `messages`
(JavaScript `Map`s, i.e. insertion-ordered association maps) and
`onlineUsers` (an insertion-ordered `Set`).  Socket.IO rooms are modelled
explicitly: `socket.join(room)` adds the socket id to a room's member
list, and `io.to(room).emit(...)` delivers to every socket currently in
the room.  Each Socket.IO handler is translated to a pure function on a
`ServerState`; where a handler emits events, a companion function
computes the list of recipient socket ids exactly as the emit loop does.
-/

namespace Acto

/-- JavaScript `Map.set`: update the value in place if the key is
already present (keeping its position), otherwise append the entry. -/
def mapSet (k : String) (v : α) : List (String × α) → List (String × α)
  | [] => [(k, v)]
  | (k', v') :: rest =>
    if k' = k then (k', v) :: rest else (k', v') :: mapSet k v rest

/-- JavaScript `Set.add`: append the element if absent. -/
def setAdd (x : String) (s : List String) : List String :=
  if x ∈ s then s else s ++ [x]

/-- A registered user record, as built by the `user-online` handler. -/
structure User where
  id : String
  socketId : String
  username : String
  displayName : String
  isOnline : Bool
  lastSeen : Nat
deriving DecidableEq

/-- A chat record, as built by the `create-chat` handler. -/
structure Chat where
  id : String
  type : String
  name : String
  description : String
  participants : List String
  admins : List String
  owner : String
  createdAt : Nat
deriving DecidableEq

/-- A message payload (`messageData`) as handled by `send-message` and
`mark-as-read`.  The `readBy` field is part of the client-supplied
record; the server never touches it. -/
structure Message where
  id : String
  chatId : String
  senderId : String
  senderUsername : String
  content : String
  readBy : List String
deriving DecidableEq

/-- The global mutable state of the server. -/
structure ServerState where
  users : List (String × User)
  chats : List (String × Chat)
  messages : List (String × List Message)
  onlineUsers : List String
  rooms : List (String × List String)
deriving DecidableEq

def emptyState : ServerState :=
  { users := [], chats := [], messages := [], onlineUsers := [], rooms := [] }

/-- The socket ids currently joined to a Socket.IO room. -/
def roomSockets (st : ServerState) (room : String) : List String :=
  (st.rooms.lookup room).getD []

/-- `socket.join(room)`: a no-op if the socket is already in the room. -/
def joinRoom (room sid : String) (rooms : List (String × List String)) :
    List (String × List String) :=
  let cur := (rooms.lookup room).getD []
  if sid ∈ cur then rooms else mapSet room (cur ++ [sid]) rooms

/-- Resolution of `io.to("user_" + userId)`: the sockets that receive an
event targeted at a user. -/
def toUserSockets (userId : String) (st : ServerState) : List String :=
  roomSockets st ("user_" ++ userId)

/-- The `user-online` handler: builds a fresh user record with the
current socket id, stores it under the user id, adds the user to the
online set, and joins the socket to the user's personal room. -/
def userOnline (userId username displayName sid : String) (now : Nat)
    (st : ServerState) : ServerState :=
  let user : User :=
    { id := userId, socketId := sid, username := username,
      displayName := displayName, isOnline := true, lastSeen := now }
  { st with
    users := mapSet userId user st.users
    onlineUsers := setAdd userId st.onlineUsers
    rooms := joinRoom ("user_" ++ userId) sid st.rooms }

/-- The storage part of the `send-message` handler: if the chat has no
message array yet, one is created (`messages.set(chatId, [])`), then the
message is pushed onto it. -/
def sendMessage (md : Message) (st : ServerState) : ServerState :=
  { st with
    messages :=
      mapSet md.chatId ((st.messages.lookup md.chatId).getD [] ++ [md])
        st.messages }

/-- The fan-out part of the `send-message` handler: if the chat exists,
`new-message` is emitted to the personal room of every participant. -/
def sendMessageRecipients (md : Message) (st : ServerState) : List String :=
  match st.chats.lookup md.chatId with
  | some chat =>
      chat.participants.flatMap (fun p => roomSockets st ("user_" ++ p))
  | none => []

/-- The payload of a `create-chat` event. -/
structure ChatData where
  id : String
  type : String
  name : String
  description : String
  participants : List String
  admins : Option (List String)
  creatorId : String
deriving DecidableEq

/-- The `newChat` record built by the `create-chat` handler
(`chatData.admins || [chatData.creatorId]` defaults the admin list). -/
def newChatOf (cd : ChatData) (now : Nat) : Chat :=
  { id := cd.id, type := cd.type, name := cd.name,
    description := cd.description, participants := cd.participants,
    admins := cd.admins.getD [cd.creatorId], owner := cd.creatorId,
    createdAt := now }

/-- The `create-chat` handler: unconditionally stores the new chat under
its id and resets the chat's message array to empty. -/
def createChat (cd : ChatData) (now : Nat) (st : ServerState) : ServerState :=
  { st with
    chats := mapSet cd.id (newChatOf cd now) st.chats
    messages := mapSet cd.id [] st.messages }

/-- The `join-chat` handler: pushes the user onto the participant list
only if the chat exists and the user is not already a participant. -/
def joinChat (chatId userId : String) (st : ServerState) : ServerState :=
  match st.chats.lookup chatId with
  | some chat =>
      if userId ∈ chat.participants then st
      else
        { st with
          chats :=
            mapSet chatId
              { chat with participants := chat.participants ++ [userId] }
              st.chats }
  | none => st

/-- The `leave-chat` handler: if the chat exists, its participant list
is replaced by a copy with the user filtered out. -/
def leaveChat (chatId userId : String) (st : ServerState) : ServerState :=
  match st.chats.lookup chatId with
  | some chat =>
      { st with
        chats :=
          mapSet chatId
            { chat with
              participants := chat.participants.filter (fun p => p ≠ userId) }
            st.chats }
  | none => st

/-- The `get-messages` handler: returns the chat's message array, or an
empty array when the chat has none. -/
def getMessages (chatId : String) (st : ServerState) : List Message :=
  (st.messages.lookup chatId).getD []

/-- The `mark-as-read` handler: the server state is left untouched; a
`message-read` event is emitted to the personal room of every
participant other than the reader, when the chat exists. -/
def markAsRead (chatId userId _messageId : String) (st : ServerState) :
    ServerState × List String :=
  (st,
    match st.chats.lookup chatId with
    | some chat =>
        (chat.participants.filter (fun p => p ≠ userId)).flatMap
          (fun p => roomSockets st ("user_" ++ p))
    | none => [])

/-- JavaScript `.toLowerCase()`, modelled characterwise on the string's
character list. -/
def jsLower (s : String) : List Char := s.toList.map Char.toLower

/-- JavaScript `a.toLowerCase().includes(b.toLowerCase())`: the lowered
`b` occurs in the lowered `a` as a contiguous substring. -/
def strIncludes (a b : String) : Bool := decide (jsLower b <:+: jsLower a)

/-- The filter predicate of the `search-users` handler. -/
def userMatches (q : String) (u : User) : Bool :=
  strIncludes u.username q || strIncludes u.displayName q

/-- An entry of the reply of `search-users`. -/
structure SearchResult where
  id : String
  username : String
  displayName : String
  isOnline : Bool
deriving DecidableEq

/-- The `search-users` handler: filter all registered users by
case-insensitive substring match on username or display name, keep the
first 10, and project each onto the reply shape. -/
def searchUsers (q : String) (st : ServerState) : List SearchResult :=
  (((st.users.map Prod.snd).filter (userMatches q)).take 10).map
    (fun u =>
      { id := u.id, username := u.username, displayName := u.displayName,
        isOnline := u.id ∈ st.onlineUsers })

/-- The cleanup `setInterval` (Reaper): drop every offline user whose
last-seen is older than the 10-minute timeout, and drop every chat whose
participant list is empty together with its message array. -/
def cleanup (now : Nat) (st : ServerState) : ServerState :=
  let timeout := 10 * 60 * 1000
  { st with
    users :=
      st.users.filter
        (fun p => !(p.2.isOnline = false ∧ now - p.2.lastSeen > timeout : Bool))
    chats := st.chats.filter (fun p => !(p.2.participants.length = 0 : Bool))
    messages :=
      st.messages.filter
        (fun p =>
          !(st.chats.any (fun q => q.1 == p.1 && q.2.participants.length == 0))) }

/-! ### Association-map lemmas -/

theorem lookup_mapSet_self (k : String) (v : α) (m : List (String × α)) :
    (mapSet k v m).lookup k = some v := by
  induction m with
  | nil => simp [mapSet, List.lookup]
  | cons hd tl ih =>
    obtain ⟨k', v'⟩ := hd
    by_cases h : k' = k
    · have hb : (k == k') = true := by simp [h]
      simp [mapSet, h, List.lookup, hb]
    · have hb : (k == k') = false := by simp [Ne.symm h]
      simp [mapSet, h, List.lookup, hb, ih]

theorem lookup_mapSet_ne (k k' : String) (v : α) (m : List (String × α))
    (h : k ≠ k') : (mapSet k v m).lookup k' = m.lookup k' := by
  have hb : (k' == k) = false := by simp [Ne.symm h]
  induction m with
  | nil => simp [mapSet, List.lookup, hb]
  | cons hd tl ih =>
    obtain ⟨k₀, v₀⟩ := hd
    by_cases h₀ : k₀ = k
    · subst h₀
      simp [mapSet, List.lookup, hb]
    · simp [mapSet, h₀, List.lookup, ih]

theorem mapSet_of_lookup_self (k : String) (v : α) (m : List (String × α))
    (h : m.lookup k = some v) : mapSet k v m = m := by
  induction m with
  | nil => simp [List.lookup] at h
  | cons hd tl ih =>
    obtain ⟨k₀, v₀⟩ := hd
    by_cases h₀ : k₀ = k
    · have hb : (k == k₀) = true := by simp [h₀]
      simp [List.lookup, hb] at h
      simp [mapSet, h₀, h]
    · have hb : (k == k₀) = false := by simp [Ne.symm h₀]
      simp [List.lookup, hb] at h
      simp [mapSet, h₀, ih h]

theorem mem_mapSet {pr : String × α} {k : String} {v : α}
    {m : List (String × α)} (h : pr ∈ mapSet k v m) :
    pr.2 = v ∨ pr ∈ m := by
  induction m with
  | nil =>
    simp [mapSet] at h
    simp [h]
  | cons hd tl ih =>
    obtain ⟨k₀, v₀⟩ := hd
    by_cases h₀ : k₀ = k
    · subst h₀
      simp [mapSet] at h
      rcases h with h | h
      · simp [h]
      · simp [h]
    · simp [mapSet, h₀] at h
      rcases h with h | h
      · simp [h]
      · rcases ih h with h' | h'
        · exact Or.inl h'
        · exact Or.inr (by simp [h'])

theorem lookup_mem {k : String} {v : α} {m : List (String × α)}
    (h : m.lookup k = some v) : (k, v) ∈ m := by
  induction m with
  | nil => simp [List.lookup] at h
  | cons hd tl ih =>
    obtain ⟨k₀, v₀⟩ := hd
    by_cases h₀ : k = k₀
    · have hb : (k == k₀) = true := by simp [h₀]
      simp [List.lookup, hb] at h
      simp [h₀, h]
    · have hb : (k == k₀) = false := by simp [h₀]
      simp [List.lookup, hb] at h
      simp [ih h]

/-! ### Concrete scenario used to exercise the handlers -/

/-- `alice` sends "hi" in chat `c1`. -/
def mdHi : Message :=
  { id := "m1", chatId := "c1", senderId := "alice",
    senderUsername := "alice", content := "hi", readBy := [] }

/-- A create-chat request for group chat `c1` with `alice` and `bob`. -/
def cdC1 : ChatData :=
  { id := "c1", type := "group", name := "Chat One", description := "",
    participants := ["alice", "bob"], admins := none, creatorId := "alice" }

/-- A second create-chat request reusing id `c1`, with an empty
participant list. -/
def cdDup : ChatData :=
  { id := "c1", type := "group", name := "Chat One again", description := "",
    participants := [], admins := none, creatorId := "carol" }

/-- `alice` comes online on socket `sA`. -/
def st1 : ServerState := userOnline "alice" "alice" "Alice" "sA" 0 emptyState

/-- ... then `bob` comes online on socket `sB`. -/
def st2 : ServerState := userOnline "bob" "bob" "Bob" "sB" 0 st1

/-- ... then chat `c1` is created. -/
def stA : ServerState := createChat cdC1 0 st2

/-- ... then `alice`'s message is stored. -/
def stB : ServerState := sendMessage mdHi stA

/-! ### C1 / C3 / C10: the create-chat and send-message storage paths -/

/-- C1 is false on the code: a create-chat request whose id already
exists and whose participant list is empty does not fail — the chat is
stored (overwriting the previous chat of that id) and a fresh, empty
Message Store entry is installed over the previous log. -/
theorem c1_counterexample :
    (stB.chats.lookup "c1").isSome = true ∧
    cdDup.participants = [] ∧
    (createChat cdDup 1 stB).chats.lookup "c1" = some (newChatOf cdDup 1) ∧
    (createChat cdDup 1 stB).chats.lookup "c1" ≠ stB.chats.lookup "c1" ∧
    stB.messages.lookup "c1" = some [mdHi] ∧
    (createChat cdDup 1 stB).messages.lookup "c1" = some [] := by
  decide

/-- C1 (amended): `create-chat` performs no validation and never fails:
for every request — including one whose id already exists or whose
participant list is empty — the chat record is stored under the request
id and an empty Message Store entry is installed for that id. -/
theorem createChat_never_fails (cd : ChatData) (now : Nat) (st : ServerState) :
    (createChat cd now st).chats.lookup cd.id = some (newChatOf cd now) ∧
    (createChat cd now st).messages.lookup cd.id = some [] ∧
    getMessages cd.id (createChat cd now st) = [] := by
  refine ⟨?_, ?_, ?_⟩ <;>
    simp [createChat, getMessages, lookup_mapSet_self]

/-- C3 is false on the code: a send-message naming a chat id with no
initialized log (here even no chat at all) does not fail — it creates
the log on the fly and stores the message. -/
theorem c3_counterexample :
    emptyState.messages.lookup "c1" = none ∧
    emptyState.chats.lookup "c1" = none ∧
    (sendMessage mdHi emptyState).messages.lookup "c1" = some [mdHi] := by
  decide

/-- C3 (amended): the storage step of `send-message` never fails: it
appends the message to the chat's log, creating the log on the fly when
the chat id has no initialized log, without consulting the Chat
Directory; the chat and user registries are untouched. -/
theorem sendMessage_total (md : Message) (st : ServerState) :
    (sendMessage md st).messages.lookup md.chatId =
      some ((st.messages.lookup md.chatId).getD [] ++ [md]) ∧
    (sendMessage md st).chats = st.chats ∧
    (sendMessage md st).users = st.users := by
  refine ⟨?_, rfl, rfl⟩
  simp [sendMessage, lookup_mapSet_self]

/-- C10: a create-chat request whose id equals an existing chat's id
overwrites that chat's metadata with the new request's data and replaces
its message log by an empty one, making the previously stored messages
unreachable via `get-messages`. -/
theorem createChat_duplicate_id_overwrites (cd : ChatData) (now : Nat)
    (st : ServerState) (old : Chat) (h : st.chats.lookup cd.id = some old) :
    (createChat cd now st).chats.lookup cd.id = some (newChatOf cd now) ∧
    (createChat cd now st).messages.lookup cd.id = some [] ∧
    getMessages cd.id (createChat cd now st) = [] := by
  refine ⟨?_, ?_, ?_⟩ <;>
    simp [createChat, getMessages, lookup_mapSet_self]

/-- Witness for C10: chat `c1` exists in `stB` with message log
`[mdHi]`; re-creating id `c1` overwrites it and empties the log. -/
theorem createChat_duplicate_id_overwrites_witness :
    (createChat cdDup 1 stB).chats.lookup "c1" = some (newChatOf cdDup 1) ∧
    (createChat cdDup 1 stB).messages.lookup "c1" = some [] ∧
    getMessages "c1" (createChat cdDup 1 stB) = [] :=
  createChat_duplicate_id_overwrites cdDup 1 stB (newChatOf cdC1 0) (by decide)

/-! ### Room lemmas -/

theorem mem_roomSockets_join_self (room sid : String)
    (rooms : List (String × List String)) :
    sid ∈ ((joinRoom room sid rooms).lookup room).getD [] := by
  unfold joinRoom
  by_cases h : sid ∈ (rooms.lookup room).getD []
  · simp [h]
  · simp [h, lookup_mapSet_self]

theorem mem_roomSockets_join_mono (room room' sid x : String)
    (rooms : List (String × List String))
    (h : x ∈ (rooms.lookup room).getD []) :
    x ∈ ((joinRoom room' sid rooms).lookup room).getD [] := by
  unfold joinRoom
  by_cases he : room' = room
  · subst he
    by_cases hm : sid ∈ (rooms.lookup room').getD []
    · simpa [hm] using h
    · simp [hm, lookup_mapSet_self]
      exact Or.inl h
  · by_cases hm : sid ∈ (rooms.lookup room').getD []
    · simpa [hm] using h
    · simpa [hm, lookup_mapSet_ne room' room _ _ he] using h

/-! ### C2: send-message fan-out does not exclude the sender -/

/-- C2 is false on the code: in the spec's own scenario (chat `c1` with
participants `alice` and `bob`, both online, `alice` sends "hi"), the
emit loop targets every participant's personal room with no exclusion,
so `alice`'s own socket `sA` receives the `new-message` event. -/
theorem c2_counterexample :
    stB.chats.lookup "c1" = some (newChatOf cdC1 0) ∧
    mdHi.senderId = "alice" ∧
    (stB.users.lookup "alice").map User.socketId = some "sA" ∧
    sendMessageRecipients mdHi stB = ["sA", "sB"] := by
  decide

/-- C2 (amended): when the chat exists, `new-message` is delivered to
the sockets in the personal room of **every** participant — the sender
included; when the chat does not exist, nothing is delivered. -/
theorem sendMessage_fanout (md : Message) (st : ServerState) :
    (∀ chat, st.chats.lookup md.chatId = some chat →
      ∀ s, s ∈ sendMessageRecipients md st ↔
        ∃ p ∈ chat.participants, s ∈ roomSockets st ("user_" ++ p)) ∧
    (st.chats.lookup md.chatId = none → sendMessageRecipients md st = []) := by
  constructor
  · intro chat hc s
    simp [sendMessageRecipients, hc]
  · intro hc
    simp [sendMessageRecipients, hc]

/-- Witness for C2 (amended): in the concrete scenario, the sender
`alice`'s socket `sA` is a recipient because `alice` is a participant. -/
theorem sendMessage_fanout_witness :
    "sA" ∈ sendMessageRecipients mdHi stB ↔
      ∃ p ∈ (newChatOf cdC1 0).participants,
        "sA" ∈ roomSockets stB ("user_" ++ p) :=
  (sendMessage_fanout mdHi stB).1 (newChatOf cdC1 0) (by decide) "sA"

/-! ### C4: superseded connections stay in the personal room -/

/-- The state after user `u` comes online twice, on socket `c1` and then
on socket `c2`. -/
def stC4 : ServerState :=
  userOnline "u" "u" "U" "c2" 1 (userOnline "u" "u" "U" "c1" 0 emptyState)

/-- C4 is false on the code: after `u` comes online on `c1` and then on
`c2`, the stored connection is `c2`, but the superseded socket `c1` is
still joined to the personal room `user_u`, so per-user fan-out
(`io.to("user_u")`) still reaches `c1`. -/
theorem c4_counterexample :
    (stC4.users.lookup "u").map User.socketId = some "c2" ∧
    "c1" ∈ toUserSockets "u" stC4 := by
  decide

/-- C4 (amended): after `SetOnline(u, c1)` then `SetOnline(u, c2)`, the
user record of `u` holds socket `c2`, yet both `c1` and `c2` are in the
personal room of `u`, so events targeted at `u` are delivered to the
superseded handle `c1` as well. -/
theorem userOnline_supersede (u n1 d1 c1 n2 d2 c2 : String) (t1 t2 : Nat)
    (st : ServerState) :
    (userOnline u n2 d2 c2 t2 (userOnline u n1 d1 c1 t1 st)).users.lookup u =
      some { id := u, socketId := c2, username := n2, displayName := d2,
             isOnline := true, lastSeen := t2 } ∧
    c1 ∈ toUserSockets u (userOnline u n2 d2 c2 t2 (userOnline u n1 d1 c1 t1 st)) ∧
    c2 ∈ toUserSockets u (userOnline u n2 d2 c2 t2 (userOnline u n1 d1 c1 t1 st)) := by
  refine ⟨?_, ?_, ?_⟩
  · simp [userOnline, lookup_mapSet_self]
  · exact mem_roomSockets_join_mono _ _ _ _ _
      (mem_roomSockets_join_self _ _ _)
  · exact mem_roomSockets_join_self _ _ _

/-! ### C5: mark-as-read never records the acknowledgment -/

/-- C5 is false on the code: with chat `c1` and stored message `m1`
present, `mark-as-read` leaves the server state — in particular the
stored message and its `readBy` list — completely unchanged; the
reader's id is recorded nowhere. -/
theorem c5_counterexample :
    stB.chats.lookup "c1" = some (newChatOf cdC1 0) ∧
    getMessages "c1" stB = [mdHi] ∧
    mdHi.id = "m1" ∧
    (markAsRead "c1" "bob" "m1" stB).1 = stB ∧
    getMessages "c1" (markAsRead "c1" "bob" "m1" stB).1 = [mdHi] ∧
    mdHi.readBy = [] := by
  decide

/-- C5 (amended): `mark-as-read` performs no state mutation at all — it
only emits `message-read` to the sockets in the personal rooms of the
chat's participants other than the reader, and emits nothing when the
chat is unknown (the stored message, known or not, is never touched). -/
theorem markAsRead_no_mutation (chatId userId messageId : String)
    (st : ServerState) :
    (markAsRead chatId userId messageId st).1 = st ∧
    (st.chats.lookup chatId = none →
      (markAsRead chatId userId messageId st).2 = []) ∧
    (∀ chat, st.chats.lookup chatId = some chat →
      ∀ s, s ∈ (markAsRead chatId userId messageId st).2 ↔
        ∃ p ∈ chat.participants, p ≠ userId ∧
          s ∈ roomSockets st ("user_" ++ p)) := by
  refine ⟨rfl, ?_, ?_⟩
  · intro hc
    simp [markAsRead, hc]
  · intro chat hc s
    simp [markAsRead, hc, and_assoc]

/-- Witness for C5 (amended): concrete fan-out membership for the
scenario state, with the chat-exists hypothesis discharged. -/
theorem markAsRead_no_mutation_witness :
    "sA" ∈ (markAsRead "c1" "bob" "m1" stB).2 ↔
      ∃ p ∈ (newChatOf cdC1 0).participants, p ≠ "bob" ∧
        "sA" ∈ roomSockets stB ("user_" ++ p) :=
  (markAsRead_no_mutation "c1" "bob" "m1" stB).2.2 (newChatOf cdC1 0)
    (by decide) "sA"

/-! ### C6: join/leave membership invariant -/

/-- A sequence element of chat-membership traffic. -/
inductive MembershipOp where
  | join (chatId userId : String)
  | leave (chatId userId : String)
deriving DecidableEq

/-- Dispatch one membership event to its handler. -/
def applyOp (op : MembershipOp) (st : ServerState) : ServerState :=
  match op with
  | .join c u => joinChat c u st
  | .leave c u => leaveChat c u st

/-- Process a sequence of membership events in arrival order. -/
def applyOps (ops : List MembershipOp) (st : ServerState) : ServerState :=
  ops.foldl (fun s op => applyOp op s) st

/-- Every chat stored in the directory has a duplicate-free participant
list. -/
def ParticipantsNodup (st : ServerState) : Prop :=
  ∀ pr ∈ st.chats, (Prod.snd pr).participants.Nodup

instance (st : ServerState) : Decidable (ParticipantsNodup st) :=
  List.decidableBAll _ st.chats

theorem joinChat_nodup (c u : String) (st : ServerState)
    (h : ParticipantsNodup st) : ParticipantsNodup (joinChat c u st) := by
  unfold joinChat
  cases hc : st.chats.lookup c with
  | none => exact h
  | some chat =>
    by_cases hm : u ∈ chat.participants
    · simpa [hm] using h
    · simp only [hm, if_neg, ite_false]
      intro pr hpr
      rcases mem_mapSet hpr with h' | h'
      · have hnd : chat.participants.Nodup := h _ (lookup_mem hc)
        simp [h', List.nodup_append, hnd, hm]
      · exact h _ h'

theorem leaveChat_nodup (c u : String) (st : ServerState)
    (h : ParticipantsNodup st) : ParticipantsNodup (leaveChat c u st) := by
  unfold leaveChat
  cases hc : st.chats.lookup c with
  | none => exact h
  | some chat =>
    intro pr hpr
    rcases mem_mapSet hpr with h' | h'
    · have hnd : chat.participants.Nodup := h _ (lookup_mem hc)
      simpa [h'] using hnd.filter _
    · exact h _ h'

theorem applyOps_nodup (ops : List MembershipOp) (st : ServerState)
    (h : ParticipantsNodup st) : ParticipantsNodup (applyOps ops st) := by
  induction ops generalizing st with
  | nil => exact h
  | cons op rest ih =>
    cases op with
    | join c u => exact ih _ (joinChat_nodup c u st h)
    | leave c u => exact ih _ (leaveChat_nodup c u st h)

theorem leaveChat_not_mem (c u : String) (st : ServerState)
    (h : ∀ chat, st.chats.lookup c = some chat → u ∉ chat.participants) :
    leaveChat c u st = st := by
  cases hc : st.chats.lookup c with
  | none => simp [leaveChat, hc]
  | some chat =>
    have hm : u ∉ chat.participants := h chat hc
    have hfix : chat.participants.filter (fun p => p ≠ u) = chat.participants := by
      apply List.filter_eq_self.mpr
      intro a ha
      simp only [decide_eq_true_eq]
      intro e
      exact hm (e ▸ ha)
    have hchat : ({ chat with participants :=
        chat.participants.filter (fun p => p ≠ u) } : Chat) = chat := by
      rw [hfix]
    simp only [leaveChat, hc, hchat, mapSet_of_lookup_self _ _ _ hc]

theorem joinChat_missing (c u : String) (st : ServerState)
    (h : st.chats.lookup c = none) : joinChat c u st = st := by
  simp [joinChat, h]

theorem joinChat_already (c u : String) (st : ServerState) (chat : Chat)
    (h : st.chats.lookup c = some chat) (hm : u ∈ chat.participants) :
    joinChat c u st = st := by
  simp [joinChat, h, hm]

/-- C6: over any sequence of join/leave events, participant lists stay
duplicate-free; a leave naming a non-member (or an unknown chat) leaves
the state unchanged, as does a join on an unknown chat or by an existing
participant. -/
theorem joinLeave_invariant (st : ServerState) (ops : List MembershipOp)
    (h : ParticipantsNodup st) :
    ParticipantsNodup (applyOps ops st) ∧
    (∀ c u, (∀ chat, st.chats.lookup c = some chat → u ∉ chat.participants) →
      leaveChat c u st = st) ∧
    (∀ c u, st.chats.lookup c = none → joinChat c u st = st) ∧
    (∀ c u chat, st.chats.lookup c = some chat → u ∈ chat.participants →
      joinChat c u st = st) :=
  ⟨applyOps_nodup ops st h,
   fun c u hn => leaveChat_not_mem c u st hn,
   fun c u hn => joinChat_missing c u st hn,
   fun c u chat hc hm => joinChat_already c u st chat hc hm⟩

/-- A small mixed join/leave workload on the scenario state. -/
def opsW : List MembershipOp :=
  [.join "c1" "carol", .leave "c1" "alice", .join "c9" "dave",
   .leave "c1" "zed", .join "c1" "bob"]

/-- Witness for C6: the invariant theorem applied to the concrete
scenario state and workload, with every hypothesis discharged. -/
theorem joinLeave_invariant_witness :
    ParticipantsNodup (applyOps opsW stA) ∧
    leaveChat "c1" "zed" stA = stA ∧
    joinChat "c9" "dave" stA = stA ∧
    joinChat "c1" "bob" stA = stA :=
  ⟨(joinLeave_invariant stA opsW (by decide)).1,
   (joinLeave_invariant stA opsW (by decide)).2.1 "c1" "zed"
     (by
       intro chat hc
       have h' : stA.chats.lookup "c1" = some (newChatOf cdC1 0) := by decide
       rw [h'] at hc
       cases hc
       decide),
   (joinLeave_invariant stA opsW (by decide)).2.2.1 "c9" "dave" (by decide),
   (joinLeave_invariant stA opsW (by decide)).2.2.2 "c1" "bob"
     (newChatOf cdC1 0) (by decide) (by decide)⟩

/-! ### C7: history returns the appended messages in order -/

theorem getMessages_sendMessage (m : Message) (c : String) (st : ServerState) :
    getMessages c (sendMessage m st) =
      if m.chatId = c then getMessages c st ++ [m] else getMessages c st := by
  by_cases h : m.chatId = c
  · subst h
    simp [getMessages, sendMessage, lookup_mapSet_self]
  · simp [getMessages, sendMessage, h, lookup_mapSet_ne _ _ _ _ h]

/-- A sequence of `send-message` events processed in arrival order. -/
def applySends (msgs : List Message) (st : ServerState) : ServerState :=
  msgs.foldl (fun s m => sendMessage m s) st

theorem getMessages_applySends (msgs : List Message) (c : String)
    (st : ServerState) :
    getMessages c (applySends msgs st) =
      getMessages c st ++ msgs.filter (fun m => m.chatId = c) := by
  induction msgs generalizing st with
  | nil => simp [applySends]
  | cons m rest ih =>
    have hstep : applySends (m :: rest) st = applySends rest (sendMessage m st) :=
      rfl
    rw [hstep, ih, getMessages_sendMessage]
    by_cases h : m.chatId = c
    · simp [h, List.filter_cons]
    · simp [h, List.filter_cons]

/-- C7: starting from a state where chat `c` has no log, `get-messages`
returns the empty sequence, and after any sequence of sends it returns
exactly the messages sent to `c`, in arrival order — without ever
signalling an error. -/
theorem history_exact (st : ServerState) (c : String) (msgs : List Message)
    (h : st.messages.lookup c = none) :
    getMessages c st = [] ∧
    getMessages c (applySends msgs st) =
      msgs.filter (fun m => m.chatId = c) := by
  have h0 : getMessages c st = [] := by simp [getMessages, h]
  refine ⟨h0, ?_⟩
  rw [getMessages_applySends, h0, List.nil_append]

/-- A second message to chat `c1`. -/
def mdYo : Message :=
  { id := "m2", chatId := "c1", senderId := "bob",
    senderUsername := "bob", content := "yo", readBy := [] }

/-- A message to a different chat, interleaved between the `c1` sends. -/
def mdOther : Message :=
  { id := "m3", chatId := "c2", senderId := "alice",
    senderUsername := "alice", content := "elsewhere", readBy := [] }

/-- Witness for C7: three interleaved sends from the empty state leave
exactly the two `c1` messages in `c1`'s history, in order. -/
theorem history_exact_witness :
    getMessages "c1" emptyState = [] ∧
    getMessages "c1" (applySends [mdHi, mdOther, mdYo] emptyState) =
      [mdHi, mdOther, mdYo].filter (fun m => m.chatId = "c1") :=
  history_exact emptyState "c1" [mdHi, mdOther, mdYo] (by decide)

/-! ### C8: the cleanup sweep deletes exactly the idle users and empty
chats -/

/-- C8: one cleanup sweep keeps exactly the user entries that are not
(offline with last-seen older than the 10-minute timeout), keeps exactly
the chat entries with a non-empty participant list (each kept entry
unchanged, so reaped users' ids stay in surviving participant lists),
deletes exactly the message logs of the empty-participant chats, and
touches nothing else. -/
theorem cleanup_exact (now : Nat) (st : ServerState) :
    (∀ u user, (u, user) ∈ (cleanup now st).users ↔
      (u, user) ∈ st.users ∧
        ¬(user.isOnline = false ∧ now - user.lastSeen > 10 * 60 * 1000)) ∧
    (∀ c chat, (c, chat) ∈ (cleanup now st).chats ↔
      (c, chat) ∈ st.chats ∧ chat.participants ≠ []) ∧
    (∀ c log, (c, log) ∈ (cleanup now st).messages ↔
      (c, log) ∈ st.messages ∧
        ¬∃ chat, (c, chat) ∈ st.chats ∧ chat.participants = []) ∧
    (cleanup now st).onlineUsers = st.onlineUsers ∧
    (cleanup now st).rooms = st.rooms := by
  refine ⟨?_, ?_, ?_, rfl, rfl⟩
  · intro u user
    simp only [cleanup, List.mem_filter, Bool.not_eq_true',
      decide_eq_false_iff_not]
  · intro c chat
    simp only [cleanup, List.mem_filter, Bool.not_eq_true',
      decide_eq_false_iff_not, List.length_eq_zero]
  · intro c log
    simp only [cleanup, List.mem_filter, Bool.not_eq_true']
    constructor
    · rintro ⟨hm, hno⟩
      refine ⟨hm, ?_⟩
      rintro ⟨chat, hc, hemp⟩
      have hyes : st.chats.any
          (fun q => q.1 == c && q.2.participants.length == 0) = true :=
        List.any_eq_true.mpr ⟨(c, chat), hc, by simp [hemp]⟩
      rw [hyes] at hno
      exact Bool.noConfusion hno
    · rintro ⟨hm, hno⟩
      refine ⟨hm, ?_⟩
      rw [List.any_eq_false]
      rintro ⟨k, chat⟩ hq
      by_cases hk : k = c
      · subst hk
        have hne : chat.participants ≠ [] := fun he => hno ⟨chat, hq, he⟩
        simp [List.length_eq_zero, hne]
      · simp [hk]

/-! ### C9: search is a case-insensitive substring filter, truncated -/

/-- C9: every search reply has at most 10 entries; each entry is the
projection of a registered user whose lowered username or display name
contains the lowered query as a contiguous substring (with the entry's
online flag reflecting the online set); and when at most 10 users match,
the reply lists exactly the matching users in registry order. -/
theorem searchUsers_spec (q : String) (st : ServerState) :
    (searchUsers q st).length ≤ 10 ∧
    (∀ r ∈ searchUsers q st, ∃ u, u ∈ st.users.map Prod.snd ∧
      (jsLower q <:+: jsLower u.username ∨
       jsLower q <:+: jsLower u.displayName) ∧
      r.id = u.id ∧ r.username = u.username ∧ r.displayName = u.displayName ∧
      (r.isOnline = true ↔ u.id ∈ st.onlineUsers)) ∧
    (((st.users.map Prod.snd).filter (userMatches q)).length ≤ 10 →
      (searchUsers q st).map SearchResult.id =
        ((st.users.map Prod.snd).filter (userMatches q)).map User.id) := by
  refine ⟨?_, ?_, ?_⟩
  · simp only [searchUsers, List.length_map, List.length_take]
    exact Nat.min_le_left _ _
  · intro r hr
    simp only [searchUsers, List.mem_map] at hr
    obtain ⟨u, hu, rfl⟩ := hr
    obtain ⟨hmem, hmatch⟩ := List.mem_filter.mp (List.mem_of_mem_take hu)
    refine ⟨u, hmem, ?_, rfl, rfl, rfl, ?_⟩
    · simpa [userMatches, strIncludes, Bool.or_eq_true,
        decide_eq_true_eq] using hmatch
    · simp
  · intro hle
    have htake : ((st.users.map Prod.snd).filter (userMatches q)).take 10 =
        (st.users.map Prod.snd).filter (userMatches q) :=
      List.take_of_length_le hle
    simp [searchUsers, htake, List.map_map, Function.comp]

/-- Witness for C9: searching "Bo" in the scenario state (users `alice`
and `bob`) matches only `bob`, case-insensitively, and the reply lists
exactly the matching users. -/
theorem searchUsers_spec_witness :
    (searchUsers "Bo" stB).length ≤ 10 ∧
    (searchUsers "Bo" stB).map SearchResult.id =
      ((stB.users.map Prod.snd).filter (userMatches "Bo")).map User.id :=
  ⟨(searchUsers_spec "Bo" stB).1, (searchUsers_spec "Bo" stB).2.2 (by decide)⟩

end Acto
